import Mathlib

/-!
Verification development for the `archeon` package-fetch-and-install utility.

The embedding mirrors `src/transfer.rs` (the `Transfer` pipeline) and
`src/lib.rs` (the `Archeon` handle).  Pure computations (filename
derivation, path composition, header parsing) are translated directly;
effectful steps (filesystem writes, HTTP requests, spawning `dpkg`) are
modelled by explicit state passing over a filesystem state and by
abstract parameters standing for the external collaborators (the URI
parser of the `http` crate, the HTTP server, the command runner).
Panics (`unwrap`, `expect`, `panic!`) are modelled as `none` / a
`panicked` result; the unbounded progress-polling loop is modelled with
explicit fuel, so that non-termination is visible as exhaustion of every
fuel bound.
-/

/-- Model of Rust `str::rsplit_once('/')` specialised to a single-character
delimiter: split on the last occurrence of `c`, returning the part before
and the part after it, or `none` when `c` does not occur. -/
def rsplitOnceList (c : Char) : List Char → Option (List Char × List Char)
  | [] => none
  | x :: xs =>
    match rsplitOnceList c xs with
    | some (b, a) => some (x :: b, a)
    | none => if x = c then some ([], xs) else none

/-- Does the string start with the path separator `/`?  (Unix
`Path::is_absolute` on the pushed component.) -/
def leadingSlash (s : String) : Bool :=
  match s.data with
  | [] => false
  | c :: _ => c == '/'

/-- Does the string end with the path separator `/`?  (Used by
`PathBuf::push` to decide whether a separator must be inserted.) -/
def trailingSlash (s : String) : Bool :=
  match s.data.getLast? with
  | none => false
  | some c => c == '/'

/-- Model of Rust `PathBuf::push` on Unix: an absolute component replaces
the buffer; otherwise the component is appended, inserting a `/` when the
buffer is non-empty and does not already end in one. -/
def pathPush (base piece : String) : String :=
  if leadingSlash piece then piece
  else if base = "" then piece
  else if trailingSlash base then base ++ piece
  else base ++ "/" ++ piece

/-- Model of Rust `Path::join` (push on a fresh copy). -/
def pathJoin (base piece : String) : String := pathPush base piece

/-- Core of `Transfer::init_filename`: the part of the path-and-query
after its last `/`, or the whole string when it has no `/`. -/
def fnameChars (s : List Char) : List Char :=
  match rsplitOnceList '/' s with
  | none => s
  | some x => x.2

/-- `Transfer::init_create_path`: push the filename onto an empty
`PathBuf`. -/
def init_create_path (filename : String) : String :=
  pathPush "" filename

/-- `Transfer::init_filename`: `uri.path_and_query()` is `none` means the
source panics (`cannot get filename from URI!`), modelled as `none`;
otherwise `rsplit_once("/")` picks the part after the final slash. -/
def init_filename (paq : Option String) : Option String :=
  match paq with
  | none => none
  | some s => some (init_create_path (String.mk (fnameChars s.data)))

/-- Is the byte visible ASCII (or horizontal tab)?  This is the check the
`http` crate performs in `HeaderValue::to_str`. -/
def visibleAscii (b : Nat) : Bool :=
  (32 ≤ b && b < 127) || b == 9

/-- Model of `HeaderValue::to_str`: succeeds exactly when every byte of
the header value is visible ASCII (or tab), yielding those characters. -/
def headerToStr (hv : List Nat) : Option (List Char) :=
  if hv.all visibleAscii then some (hv.map Char.ofNat) else none

/-- Accumulator for decimal parsing: consume digits, failing on any
non-digit character. -/
def digitsValAux : List Char → Nat → Option Nat
  | [], acc => some acc
  | c :: cs, acc =>
    if c.isDigit then digitsValAux cs (acc * 10 + (c.toNat - 48)) else none

/-- Value of a non-empty all-digit character list, `none` otherwise. -/
def digitsVal : List Char → Option Nat
  | [] => none
  | c :: cs => digitsValAux (c :: cs) 0

/-- Model of `u64::from_str`: an optional leading `+`, then one or more
decimal digits, and the value must fit in 64 bits. -/
def u64FromStr (s : List Char) : Option Nat :=
  let t := match s with
    | '+' :: rest => rest
    | other => other
  match digitsVal t with
  | none => none
  | some n => if n < 2 ^ 64 then some n else none

/-- The two `unwrap`s on the Content-Length header value in
`Transfer::launch_create_file`: `to_str` followed by `u64::from_str`.
`none` means the process panics at that point. -/
def parseContentLength (hv : List Nat) : Option Nat :=
  (headerToStr hv).bind u64FromStr

/-- Bytes of a string, for writing concrete header values. -/
def strBytes (s : String) : List Nat :=
  s.data.map Char.toNat

/-- Abstract filesystem state: regular files (path to contents in bytes)
and directories (path to existence flag). -/
structure FS where
  files : String → Option (List Nat)
  dirs : String → Bool

/-- The empty filesystem. -/
def emptyFS : FS :=
  { files := fun _ => none, dirs := fun _ => false }

/-- Create or truncate the regular file at `p` so that it holds `v`. -/
def setFile (fs : FS) (p : String) (v : List Nat) : FS :=
  { fs with files := fun q => if q = p then some v else fs.files q }

/-- `Transfer::launch_get_file_length`: open the file and stat its
length; an absent file is the `std::io::Error` case. -/
def launch_get_file_length (fs : FS) (p : String) : Except Unit Nat :=
  match fs.files p with
  | none => Except.error ()
  | some v => Except.ok v.length

/-- Every `/`-terminated ancestor prefix of a path, used to model
`create_dir_all` creating intermediate directories as needed. -/
def ancestorDirs (p : String) : List String :=
  let parts := p.splitOn "/"
  ((List.range parts.length).map
      fun i => String.intercalate "/" (parts.take (i + 1))).filter
    fun q => q ≠ ""

/-- Model of `tokio::fs::create_dir_all`: mark the directory and all of
its ancestors as existing.  Idempotent: creating an existing directory
succeeds. -/
def mkdirAll (p : String) (fs : FS) : FS :=
  { fs with dirs := fun d => d == p || (ancestorDirs p).contains d || fs.dirs d }

/-- Parsed URI as the `http` crate exposes it to `transfer.rs`: scheme,
authority and an optional path-and-query component. -/
structure Uri where
  scheme : String
  authority : String
  pathAndQuery : Option String
deriving DecidableEq

/-- The `Transfer` struct of `transfer.rs` (the owned HTTP client handle
carries no data relevant to the claims and is omitted). -/
structure Transfer where
  uri : Uri
  filename : String
  tempDir : String
  filePath : String
deriving DecidableEq

/-- `Transfer::init_temp_dir`: push the system temp root and `archeon`
onto an empty `PathBuf`, then `create_dir_all` it.  Returns the path and
the updated filesystem. -/
def init_temp_dir (tempRoot : String) (fs : FS) : String × FS :=
  let path := pathPush (pathPush "" tempRoot) "archeon"
  (path, mkdirAll path fs)

/-- `Transfer::init_file_path`: push `temp_dir` then `filename` onto an
empty `PathBuf`. -/
def init_file_path (tempDir filename : String) : String :=
  pathPush (pathPush "" tempDir) filename

/-- `Transfer::init`: parse the URI (panic = `none` on failure), derive
the filename (panic = `none` when the URI has no path-and-query), create
the staging directory, compose the file path, assemble the `Transfer`.
The URI parser of the `http` crate is an abstract parameter `parse`; the
system temp root (`std::env::temp_dir`) is the parameter `tempRoot`. -/
def Transfer.init (parse : String → Option Uri) (tempRoot : String)
    (u : String) (fs : FS) : Option (Transfer × FS) :=
  match parse u with
  | none => none
  | some uri =>
    match init_filename uri.pathAndQuery with
    | none => none
    | some filename =>
      let tdfs := init_temp_dir tempRoot fs
      let filePath := init_file_path tdfs.1 filename
      some ({ uri := uri, filename := filename, tempDir := tdfs.1,
              filePath := filePath }, tdfs.2)

/-- Outcome of the download pipeline: `success` is `Ok(())`, `ioError`
a returned `std::io::Error`, `panicked` a process panic via `unwrap` /
`panic!`, and `noFuel` records that the progress loop did not terminate
within the given fuel bound. -/
inductive LaunchResult
  | success
  | ioError
  | panicked
  | noFuel
deriving DecidableEq

/-- The progress-polling loop of `Transfer::launch_create_file`:
`while initial_size < total_size { stat; update }`.  `obs step` is the
stat performed on iteration `step` (an `Except.error` is a failing
`File::open`/`metadata`, which the `?` operator propagates out of the
loop).  The loop itself is unbounded in the source; `fuel` bounds the
number of iterations we unfold, with `none` meaning the loop was still
running when the fuel ran out. -/
def progressLoop (obs : Nat → Except Unit Nat) (total : Nat) :
    Nat → Nat → Nat → Option (Except Unit Unit)
  | 0, _, _ => none
  | fuel + 1, step, size =>
    if size < total then
      match obs step with
      | Except.error e => some (Except.error e)
      | Except.ok cur => progressLoop obs total fuel (step + 1) cur
    else
      some (Except.ok ())

/-- `Transfer::launch_create_file`: create (truncate) the file at
`filePath`, write all of `bytes`, stat the initial length, `unwrap` the
Content-Length header into a `u64`, then run the progress loop.  The
filesystem resulting from the write is returned in every case: a panic
does not roll the write back. -/
def launch_create_file (filePath : String) (bytes cl : List Nat)
    (fs : FS) (fuel : Nat) : FS × LaunchResult :=
  let fs1 := setFile fs filePath []
  let fs2 := setFile fs1 filePath bytes
  match launch_get_file_length fs2 filePath with
  | Except.error _ => (fs2, LaunchResult.ioError)
  | Except.ok initialSize =>
    match headerToStr cl with
    | none => (fs2, LaunchResult.panicked)
    | some s =>
      match u64FromStr s with
      | none => (fs2, LaunchResult.panicked)
      | some totalSize =>
        match progressLoop (fun _ => launch_get_file_length fs2 filePath)
            totalSize fuel 0 initialSize with
        | none => (fs2, LaunchResult.noFuel)
        | some (Except.error _) => (fs2, LaunchResult.ioError)
        | some (Except.ok _) => (fs2, LaunchResult.success)

/-- Requests `launch` issues, in order. -/
inductive Event
  | headReq
  | getReq
deriving DecidableEq

/-- The remote server as `launch` sees it: the HEAD result (transport
error, or the value of the `Content-Length` header if any) and the GET
result (transport error, or the drained body, whose draining may itself
fail). -/
structure Server where
  head : Except Unit (Option (List Nat))
  get : Except Unit (Except Unit (List Nat))

/-- `Transfer::launch_content_length`: await the HEAD response and fetch
its `Content-Length` header.  A transport error or a missing header is a
panic, modelled as `none`. -/
def launch_content_length (headResult : Except Unit (Option (List Nat))) :
    Option (List Nat) :=
  match headResult with
  | Except.error _ => none
  | Except.ok none => none
  | Except.ok (some hv) => some hv

/-- `Transfer::launch`: HEAD for the Content-Length, then GET, drain the
body, and `launch_create_file` — whose `Err` the source `unwrap`s into a
panic.  Returns the requests issued, the final filesystem and the
outcome. -/
def launch (srv : Server) (filePath : String) (fs : FS) (fuel : Nat) :
    List Event × FS × LaunchResult :=
  match launch_content_length srv.head with
  | none => ([Event.headReq], fs, LaunchResult.panicked)
  | some cl =>
    match srv.get with
    | Except.error _ => ([Event.headReq, Event.getReq], fs, LaunchResult.panicked)
    | Except.ok (Except.error _) =>
      ([Event.headReq, Event.getReq], fs, LaunchResult.panicked)
    | Except.ok (Except.ok bytes) =>
      let r := launch_create_file filePath bytes cl fs fuel
      match r.2 with
      | LaunchResult.ioError => ([Event.headReq, Event.getReq], r.1, LaunchResult.panicked)
      | LaunchResult.panicked => ([Event.headReq, Event.getReq], r.1, LaunchResult.panicked)
      | LaunchResult.noFuel => ([Event.headReq, Event.getReq], r.1, LaunchResult.noFuel)
      | LaunchResult.success => ([Event.headReq, Event.getReq], r.1, LaunchResult.success)

/-- An external command invocation: program, arguments and working
directory, as assembled by `tokio::process::Command`. -/
structure CommandSpec where
  program : String
  args : List String
  currentDir : String
deriving DecidableEq

/-- Captured output of an awaited child process. -/
structure CommandOutput where
  status : Int
  stdout : List Nat
  stderr : List Nat
deriving DecidableEq

/-- `Transfer::install_package`: spawn `dpkg --install <filename>` with
the working directory set to `temp_dir`, await it, print its status,
stdout and stderr, and return `Ok(())` (a spawn/wait failure is returned
as the error).  The OS is the abstract parameter `runner`; the middle
component is the diagnostic triple printed to standard output (`none`
when the spawn failed and nothing was printed). -/
def install_package (t : Transfer)
    (runner : CommandSpec → Except Unit CommandOutput) :
    CommandSpec × Option (Int × List Nat × List Nat) × Except Unit Unit :=
  let spec : CommandSpec :=
    { program := "dpkg", args := ["--install", t.filename],
      currentDir := t.tempDir }
  match runner spec with
  | Except.error e => (spec, none, Except.error e)
  | Except.ok out => (spec, some (out.status, out.stdout, out.stderr), Except.ok ())

/-- Exit condition of one check of the progress loop: the observation is
a failing stat (the `?` operator returns the error) or a length that has
reached the total. -/
def loopExits (total : Nat) (e : Except Unit Nat) : Prop :=
  match e with
  | Except.error _ => True
  | Except.ok v => total ≤ v

instance (total : Nat) (e : Except Unit Nat) : Decidable (loopExits total e) :=
  match e with
  | Except.error _ => inferInstanceAs (Decidable True)
  | Except.ok v => inferInstanceAs (Decidable (total ≤ v))

/-- Witness fixture: the parsed form of `http://a/b.deb`. -/
def uriW : Uri :=
  { scheme := "http", authority := "a", pathAndQuery := some "/b.deb" }

/-- Witness fixture: a URI parser accepting exactly `http://a/b.deb`. -/
def parseW : String → Option Uri :=
  fun s => if s = "http://a/b.deb" then some uriW else none

/-- Witness fixture: the Transfer that `init` builds for
`http://a/b.deb` with temp root `/tmp`. -/
def transferW : Transfer :=
  { uri := uriW, filename := "b.deb", tempDir := "/tmp/archeon",
    filePath := "/tmp/archeon/b.deb" }

/-- Witness fixture: a command runner whose child exits with the nonzero
status 1. -/
def runnerNonzero : CommandSpec → Except Unit CommandOutput :=
  fun _ =>
    Except.ok { status := 1, stdout := strBytes "out", stderr := strBytes "err" }

/-! ## Helper lemmas -/

theorem progressLoop_zero (obs : Nat → Except Unit Nat) (total step size : Nat) :
    progressLoop obs total 0 step size = none := rfl

theorem progressLoop_succ (obs : Nat → Except Unit Nat)
    (total fuel step size : Nat) :
    progressLoop obs total (fuel + 1) step size =
      if size < total then
        match obs step with
        | Except.error e => some (Except.error e)
        | Except.ok cur => progressLoop obs total fuel (step + 1) cur
      else some (Except.ok ()) := rfl

theorem progressLoop_some_imp (obs : Nat → Except Unit Nat) (total : Nat) :
    ∀ (fuel step size : Nat) (r : Except Unit Unit),
      progressLoop obs total fuel step size = some r →
      total ≤ size ∨ ∃ n, step ≤ n ∧ loopExits total (obs n) := by
  intro fuel
  induction fuel with
  | zero => intro step size r h; simp [progressLoop_zero] at h
  | succ fuel ih =>
    intro step size r h
    rw [progressLoop_succ] at h
    by_cases hlt : size < total
    · rw [if_pos hlt] at h
      cases ho : obs step with
      | error e =>
        exact Or.inr ⟨step, Nat.le_refl _, by rw [ho]; trivial⟩
      | ok cur =>
        rw [ho] at h
        rcases ih (step + 1) cur r h with htot | ⟨n, hn, hex⟩
        · exact Or.inr ⟨step, Nat.le_refl _, by rw [ho]; exact htot⟩
        · exact Or.inr ⟨n, Nat.le_trans (Nat.le_succ step) hn, hex⟩
    · exact Or.inl (Nat.le_of_not_lt hlt)

theorem progressLoop_reaches (obs : Nat → Except Unit Nat) (total : Nat) :
    ∀ (m step size : Nat),
      (∀ k, k < m → ∃ v, obs (step + k) = Except.ok v ∧ v < total) →
      loopExits total (obs (step + m)) → size < total →
      ∃ r, progressLoop obs total (m + 2) step size = some r := by
  intro m
  induction m with
  | zero =>
    intro step size hpre hex hlt
    rw [Nat.add_zero] at hex
    cases ho : obs step with
    | error e =>
      refine ⟨Except.error e, ?_⟩
      show progressLoop obs total (1 + 1) step size = _
      rw [progressLoop_succ, if_pos hlt, ho]
    | ok v =>
      rw [ho] at hex
      refine ⟨Except.ok (), ?_⟩
      show progressLoop obs total (1 + 1) step size = _
      rw [progressLoop_succ, if_pos hlt, ho]
      show progressLoop obs total (0 + 1) (step + 1) v = _
      rw [progressLoop_succ, if_neg (Nat.not_lt.mpr hex)]
  | succ m ih =>
    intro step size hpre hex hlt
    obtain ⟨v0, ho, hv0⟩ := hpre 0 (Nat.succ_pos m)
    rw [Nat.add_zero] at ho
    show ∃ r, progressLoop obs total (m + 2 + 1) step size = some r
    rw [progressLoop_succ, if_pos hlt, ho]
    apply ih (step + 1) v0
    · intro k hk
      obtain ⟨v, hv, hvl⟩ := hpre (k + 1) (Nat.succ_lt_succ hk)
      refine ⟨v, ?_, hvl⟩
      rw [← hv]
      congr 1
      omega
    · have harr : step + 1 + m = step + (m + 1) := by omega
      rw [harr]
      exact hex
    · exact hv0

theorem progressLoop_const_none (obs : Nat → Except Unit Nat) (total v : Nat)
    (hobs : ∀ n, obs n = Except.ok v) (hlt : v < total) :
    ∀ fuel step, progressLoop obs total fuel step v = none := by
  intro fuel
  induction fuel with
  | zero => intro step; rfl
  | succ fuel ih =>
    intro step
    rw [progressLoop_succ, if_pos hlt, hobs step]
    exact ih (step + 1)

theorem launch_create_file_fst (filePath : String) (bytes cl : List Nat)
    (fs : FS) (fuel : Nat) :
    (launch_create_file filePath bytes cl fs fuel).1 =
      setFile (setFile fs filePath []) filePath bytes := by
  simp only [launch_create_file]
  repeat' split
  all_goals rfl

theorem setFile_dirs (fs : FS) (p : String) (v : List Nat) :
    (setFile fs p v).dirs = fs.dirs := rfl

theorem launch_dirs (srv : Server) (filePath : String) (fs : FS) (fuel : Nat) :
    ((launch srv filePath fs fuel).2.1).dirs = fs.dirs := by
  unfold launch
  cases hc : launch_content_length srv.head with
  | none => rfl
  | some cl =>
    cases hg : srv.get with
    | error e => rfl
    | ok inner =>
      cases inner with
      | error e => rfl
      | ok bytes =>
        simp only
        cases hr : (launch_create_file filePath bytes cl fs fuel).2 <;>
          simp only [hr] <;> rw [launch_create_file_fst] <;> rfl

theorem mkdirAll_dirs_self (p : String) (fs : FS) :
    (mkdirAll p fs).dirs p = true := by
  simp [mkdirAll]

theorem mkdirAll_idem (p : String) (fs : FS) :
    mkdirAll p (mkdirAll p fs) = mkdirAll p fs := by
  obtain ⟨files, dirs⟩ := fs
  unfold mkdirAll
  simp only
  congr 1
  funext d
  cases hdp : (d == p) <;>
    cases hcn : ((ancestorDirs p).contains d) <;>
    cases hdd : dirs d <;> simp [hdp, hcn, hdd]

theorem rsplitOnceList_none {c : Char} {s : List Char}
    (h : rsplitOnceList c s = none) : c ∉ s := by
  induction s with
  | nil => simp
  | cons x xs ih =>
    cases hr : rsplitOnceList c xs with
    | some p =>
      obtain ⟨b, a⟩ := p
      simp [rsplitOnceList, hr] at h
    | none =>
      simp only [rsplitOnceList, hr] at h
      by_cases hx : x = c
      · rw [if_pos hx] at h
        exact absurd h (by simp)
      · simp only [List.mem_cons, not_or]
        exact ⟨fun he => hx he.symm, ih hr⟩

theorem rsplitOnceList_some {c : Char} {s : List Char} :
    ∀ {b a : List Char}, rsplitOnceList c s = some (b, a) →
      s = b ++ c :: a ∧ c ∉ a := by
  induction s with
  | nil => intro b a h; simp [rsplitOnceList] at h
  | cons x xs ih =>
    intro b a h
    cases hr : rsplitOnceList c xs with
    | some p =>
      obtain ⟨b0, a0⟩ := p
      simp only [rsplitOnceList, hr] at h
      obtain ⟨hb, ha⟩ := Prod.mk.injEq .. ▸ Option.some.injEq .. ▸ h
      obtain ⟨hs, hna⟩ := ih hr
      subst hb; subst ha
      exact ⟨by simpa using congrArg (x :: ·) hs, hna⟩
    | none =>
      simp only [rsplitOnceList, hr] at h
      by_cases hx : x = c
      · rw [if_pos hx] at h
        obtain ⟨hb, ha⟩ := Prod.mk.injEq .. ▸ Option.some.injEq .. ▸ h
        subst hb; subst ha; subst hx
        exact ⟨rfl, rsplitOnceList_none hr⟩
      · rw [if_neg hx] at h
        exact absurd h (by simp)

theorem rsplitOnceList_mem {c : Char} {s : List Char} (h : c ∈ s) :
    ∃ b a, rsplitOnceList c s = some (b, a) := by
  cases hr : rsplitOnceList c s with
  | none => exact absurd h (rsplitOnceList_none hr)
  | some p =>
    obtain ⟨b, a⟩ := p
    exact ⟨b, a, rfl⟩

theorem fnameChars_no_sep (s : List Char) : '/' ∉ fnameChars s := by
  unfold fnameChars
  cases hr : rsplitOnceList '/' s with
  | none => exact rsplitOnceList_none hr
  | some p =>
    obtain ⟨b, a⟩ := p
    exact (rsplitOnceList_some hr).2

theorem pathPush_empty_left (t : String) : pathPush "" t = t := by
  unfold pathPush
  by_cases h : leadingSlash t
  · simp [h]
  · simp [h]

theorem init_filename_some (q : String) :
    init_filename (some q) = some (String.mk (fnameChars q.data)) := by
  simp [init_filename, init_create_path, pathPush_empty_left]

/-! ## Claims -/

/-- C2: for every URL accepted by `init` whose path-and-query contains at
least one `/`, the derived filename is exactly the substring after the
final `/` (there is a prefix `pre` with `path_and_query = pre ++ "/" ++
filename` and the filename itself contains no further `/`); when the
path-and-query contains no `/`, the filename is the full path-and-query,
verbatim in both cases (no percent-decoding, query stripping or other
sanitization). -/
theorem c2_filename_derivation (q : String) :
    ('/' ∈ q.data → ∃ pre fn, init_filename (some q) = some fn ∧
        q.data = pre ++ '/' :: fn.data ∧ '/' ∉ fn.data) ∧
    ('/' ∉ q.data → init_filename (some q) = some q) := by
  constructor
  · intro hmem
    obtain ⟨b, a, hr⟩ := rsplitOnceList_mem hmem
    obtain ⟨hs, hna⟩ := rsplitOnceList_some hr
    refine ⟨b, String.mk a, ?_, ?_, hna⟩
    · rw [init_filename_some]
      unfold fnameChars
      rw [hr]
    · exact hs
  · intro hnot
    rw [init_filename_some]
    unfold fnameChars
    obtain ⟨l⟩ := q
    cases hr : rsplitOnceList '/' l with
    | none => rfl
    | some p =>
      obtain ⟨b, a⟩ := p
      exact absurd ((rsplitOnceList_some hr).1 ▸ (by simp)) hnot

/-- C2 witness: the slash case at the spec's own example path-and-query,
and the no-slash case at a slash-free string. -/
theorem c2_filename_derivation_witness :
    (∃ pre fn,
        init_filename (some "/with/path/and/query.extension") = some fn ∧
        "/with/path/and/query.extension".data = pre ++ '/' :: fn.data ∧
        '/' ∉ fn.data) ∧
    init_filename (some "no_slash") = some "no_slash" :=
  ⟨(c2_filename_derivation "/with/path/and/query.extension").1 (by decide),
   (c2_filename_derivation "no_slash").2 (by decide)⟩

/-- C5 counterexample: the path-and-query `"/"` (the URL
`http://host/`, which `init` accepts) derives the empty filename, so the
derived filename is not always non-empty. -/
theorem c5_counterexample : init_filename (some "/") = some "" := by
  decide

/-- C5 (amended): for every URL accepted by `init`, the derived filename
contains no path separator `/`; it is not necessarily non-empty (a
path-and-query ending in `/` yields the empty filename). -/
theorem c5_no_separator (q fn : String)
    (h : init_filename (some q) = some fn) : '/' ∉ fn.data := by
  rw [init_filename_some] at h
  obtain rfl := Option.some.injEq .. ▸ h
  exact fnameChars_no_sep q.data

/-- C5 witness: the amended statement at the spec's S3 example. -/
theorem c5_no_separator_witness : '/' ∉ ("query.extension" : String).data :=
  c5_no_separator "/with/path/and/query.extension" "query.extension" (by decide)

theorem statFile_after_write (filePath : String) (bytes : List Nat) (fs : FS) :
    launch_get_file_length (setFile (setFile fs filePath []) filePath bytes)
      filePath = Except.ok bytes.length := by
  simp [launch_get_file_length, setFile]

theorem launch_create_file_success (filePath : String) (B hv : List Nat)
    (fs : FS) (fuel : Nat) (hCL : parseContentLength hv = some B.length) :
    launch_create_file filePath B hv fs (fuel + 1) =
      (setFile (setFile fs filePath []) filePath B, LaunchResult.success) := by
  have hCL2 : (headerToStr hv).bind u64FromStr = some B.length := hCL
  obtain ⟨s, hs, hu⟩ := Option.bind_eq_some.mp hCL2
  have hstat := statFile_after_write filePath B fs
  simp only [launch_create_file, hstat, hs, hu]
  rw [progressLoop_succ, if_neg (Nat.lt_irrefl B.length)]

theorem launch_create_file_badcl (filePath : String) (B hv : List Nat)
    (fs : FS) (fuel : Nat) (hBad : parseContentLength hv = none) :
    launch_create_file filePath B hv fs fuel =
      (setFile (setFile fs filePath []) filePath B, LaunchResult.panicked) := by
  have hstat := statFile_after_write filePath B fs
  cases hh : headerToStr hv with
  | none => simp only [launch_create_file, hstat, hh]
  | some s =>
    have hBad2 : (headerToStr hv).bind u64FromStr = none := hBad
    rw [hh] at hBad2
    have hu : u64FromStr s = none := by simpa using hBad2
    simp only [launch_create_file, hstat, hh, hu]

/-- C1: for every server whose GET on the Transfer's URI yields the body
`B` and whose HEAD carries a `Content-Length` header equal to `|B|`,
`launch` succeeds and afterwards the file at `file_path` exists (as a
regular file in the filesystem model) with contents exactly `B`. -/
theorem c1_launch_writes_body (srv : Server) (filePath : String) (fs : FS)
    (B hv : List Nat) (fuel : Nat)
    (hHead : srv.head = Except.ok (some hv))
    (hGet : srv.get = Except.ok (Except.ok B))
    (hCL : parseContentLength hv = some B.length) :
    (launch srv filePath fs (fuel + 1)).2.2 = LaunchResult.success ∧
    ((launch srv filePath fs (fuel + 1)).2.1).files filePath = some B := by
  have hlcf := launch_create_file_success filePath B hv fs fuel hCL
  simp only [launch, launch_content_length, hHead, hGet, hlcf]
  simp [setFile]

/-- C1 witness: the spec's S1 scenario — body `test_body` (9 bytes) with
`Content-Length: 9`. -/
theorem c1_launch_writes_body_witness :
    (launch { head := Except.ok (some (strBytes "9")),
              get := Except.ok (Except.ok (strBytes "test_body")) }
        "/tmp/archeon/test_launch_file.txt" emptyFS 1).2.2 =
      LaunchResult.success ∧
    ((launch { head := Except.ok (some (strBytes "9")),
               get := Except.ok (Except.ok (strBytes "test_body")) }
        "/tmp/archeon/test_launch_file.txt" emptyFS 1).2.1).files
        "/tmp/archeon/test_launch_file.txt" = some (strBytes "test_body") :=
  c1_launch_writes_body _ _ emptyFS (strBytes "test_body") (strBytes "9") 0
    rfl rfl (by decide)

/-- C3: `file_path` equals `join(temp_dir, filename)` as a pure path
identity for every temp dir and filename, independent of the filesystem;
concretely, `/tmp/archeon` joined with `query.extension` stringifies to
`/tmp/archeon/query.extension`. -/
theorem c3_file_path_is_join :
    (∀ tempDir filename : String,
        init_file_path tempDir filename = pathJoin tempDir filename) ∧
    init_file_path "/tmp/archeon" "query.extension" =
      "/tmp/archeon/query.extension" := by
  constructor
  · intro t f
    unfold init_file_path pathJoin
    rw [pathPush_empty_left]
  · decide

/-- C4: the Content-Length probe returns the header value byte-for-byte
when the HEAD response carries one, and is a panic exactly when the HEAD
transport fails or the header is missing — in which case `launch` stops
after the HEAD request with a panic and never issues the GET. -/
theorem c4_content_length_probe (h : Except Unit (Option (List Nat))) :
    (∀ hv, h = Except.ok (some hv) → launch_content_length h = some hv) ∧
    (launch_content_length h = none ↔
      h = Except.error () ∨ h = Except.ok none) ∧
    (∀ srv filePath fs fuel, srv.head = h → launch_content_length h = none →
      launch srv filePath fs fuel = ([Event.headReq], fs, LaunchResult.panicked)) := by
  refine ⟨?_, ?_, ?_⟩
  · intro hv hh
    subst hh
    rfl
  · cases h with
    | error e => cases e; simp [launch_content_length]
    | ok o => cases o <;> simp [launch_content_length]
  · intro srv filePath fs fuel hh hnone
    subst hh
    unfold launch
    rw [hnone]

/-- C4 witness: the spec's S2 probe value `100000` returned verbatim, and
a failing HEAD transport making `launch` panic with only the HEAD request
issued. -/
theorem c4_content_length_probe_witness :
    launch_content_length (Except.ok (some (strBytes "100000"))) =
      some (strBytes "100000") ∧
    launch { head := Except.error (), get := Except.ok (Except.ok []) }
        "/p" emptyFS 1 = ([Event.headReq], emptyFS, LaunchResult.panicked) :=
  ⟨(c4_content_length_probe (Except.ok (some (strBytes "100000")))).1 _ rfl,
   (c4_content_length_probe (Except.error ())).2.2 _ "/p" emptyFS 1 rfl rfl⟩

/-- C6: with the external URI parser as the model boundary, `init u` is
fatal exactly when the parser rejects `u` (the `UriParse` panic), and
for every `u` the parser accepts — absolute URIs carry a path-and-query
component — the constructed Transfer stores the parsed URI unchanged, so
its scheme, authority and path-and-query equal those of `u`. -/
theorem c6_init_parse (parse : String → Option Uri) (tempRoot u : String)
    (fs : FS) (habs : ∀ v, parse u = some v → v.pathAndQuery ≠ none) :
    (Transfer.init parse tempRoot u fs = none ↔ parse u = none) ∧
    (∀ w, parse u = some w →
      ∃ t fs2, Transfer.init parse tempRoot u fs = some (t, fs2) ∧
        t.uri = w) := by
  cases hp : parse u with
  | none => simp [Transfer.init, hp]
  | some v =>
    have hpq : v.pathAndQuery ≠ none := habs v hp
    cases hq : v.pathAndQuery with
    | none => exact absurd hq hpq
    | some s =>
      constructor
      · simp [Transfer.init, hp, hq, init_filename_some]
      · intro w hw
        have hvw : v = w := Option.some.inj hw
        refine ⟨{ uri := v, filename := String.mk (fnameChars s.data),
                  tempDir := (init_temp_dir tempRoot fs).1,
                  filePath := init_file_path (init_temp_dir tempRoot fs).1
                    (String.mk (fnameChars s.data)) },
                (init_temp_dir tempRoot fs).2, ?_, hvw⟩
        simp only [Transfer.init, hp, hq, init_filename_some]

/-- C6 witness: the toy parser accepting exactly `http://a/b.deb`
produces a Transfer holding that parsed URI. -/
theorem c6_init_parse_witness :
    ∃ t fs2, Transfer.init parseW "/tmp" "http://a/b.deb" emptyFS =
      some (t, fs2) ∧ t.uri = uriW :=
  (c6_init_parse parseW "/tmp" "http://a/b.deb" emptyFS (by
      intro v hv
      rw [show parseW "http://a/b.deb" = some uriW by decide] at hv
      injection hv with h
      subst h
      decide)).2 uriW (by decide)

/-- C7: after every successful `init` the staging directory
`<temp root>/archeon` exists in the filesystem model, creating it again
is a no-op (creation never fails because it already exists), and no
`launch` ever removes a directory. -/
theorem c7_staging_dir (tempRoot : String) (fs : FS) :
    (∀ parse u t fs2, Transfer.init parse tempRoot u fs = some (t, fs2) →
        fs2.dirs t.tempDir = true) ∧
    init_temp_dir tempRoot (init_temp_dir tempRoot fs).2 =
      init_temp_dir tempRoot fs ∧
    (∀ srv filePath fs3 fuel,
        ((launch srv filePath fs3 fuel).2.1).dirs = fs3.dirs) := by
  refine ⟨?_, ?_, ?_⟩
  · intro parse u t fs2 h
    cases hp : parse u with
    | none => simp [Transfer.init, hp] at h
    | some v =>
      cases hq : init_filename v.pathAndQuery with
      | none => simp [Transfer.init, hp, hq] at h
      | some fn =>
        simp only [Transfer.init, hp, hq, Option.some.injEq, Prod.mk.injEq] at h
        obtain ⟨ht, hfs⟩ := h
        subst hfs
        rw [← ht]
        exact mkdirAll_dirs_self _ fs
  · simp only [init_temp_dir]
    rw [mkdirAll_idem]
  · exact fun srv filePath fs3 fuel => launch_dirs srv filePath fs3 fuel

/-- C7 witness: after `init` on `http://a/b.deb` with temp root `/tmp`,
the staging directory `/tmp/archeon` exists. -/
theorem c7_staging_dir_witness :
    ((init_temp_dir "/tmp" emptyFS).2).dirs "/tmp/archeon" = true :=
  (c7_staging_dir "/tmp" emptyFS).1 parseW "http://a/b.deb"
    ({ uri := uriW, filename := "b.deb", tempDir := "/tmp/archeon",
       filePath := "/tmp/archeon/b.deb" } : Transfer)
    (init_temp_dir "/tmp" emptyFS).2 rfl

/-- C8: `install` spawns exactly `dpkg --install <filename>` (the
relative filename, not the absolute `file_path`) with the working
directory set to `temp_dir`, emits the child's exit status, stdout and
stderr as diagnostics, and returns `Ok(())` whenever the spawn/wait
succeeded — regardless of the exit code — and the I/O error otherwise. -/
theorem c8_install (t : Transfer)
    (runner : CommandSpec → Except Unit CommandOutput) :
    (install_package t runner).1 =
      CommandSpec.mk "dpkg" ["--install", t.filename] t.tempDir ∧
    (∀ out, runner (CommandSpec.mk "dpkg" ["--install", t.filename] t.tempDir) =
        Except.ok out →
      install_package t runner =
        (CommandSpec.mk "dpkg" ["--install", t.filename] t.tempDir,
         some (out.status, out.stdout, out.stderr), Except.ok ())) ∧
    (∀ e, runner (CommandSpec.mk "dpkg" ["--install", t.filename] t.tempDir) =
        Except.error e →
      (install_package t runner).2.2 = Except.error e) := by
  refine ⟨?_, ?_, ?_⟩
  · simp only [install_package]
    cases hr : runner (CommandSpec.mk "dpkg" ["--install", t.filename]
      t.tempDir) <;> simp [hr]
  · intro out hout
    simp only [install_package, hout]
  · intro e he
    simp only [install_package, he]

/-- C8 witness: a child exiting with the nonzero status 1 still yields
`Ok(())`, with the diagnostics captured. -/
theorem c8_install_witness :
    install_package transferW runnerNonzero =
      (CommandSpec.mk "dpkg" ["--install", "b.deb"] "/tmp/archeon",
       some (1, strBytes "out", strBytes "err"), Except.ok ()) :=
  (c8_install transferW runnerNonzero).2.1
    (CommandOutput.mk 1 (strBytes "out") (strBytes "err")) rfl

/-- C9: the progress loop of `launch_create_file` terminates (for some
fuel bound) exactly when the initial observed length already reaches the
total or some polled stat fails or returns a length reaching the total;
consequently, when the written body is strictly shorter than the parsed
Content-Length and the file never grows, `launch_create_file` exhausts
every fuel bound — `launch` never returns. -/
theorem c9_progress_loop_termination (obs : Nat → Except Unit Nat)
    (total initSize : Nat) :
    ((∃ fuel r, progressLoop obs total fuel 0 initSize = some r) ↔
      total ≤ initSize ∨ ∃ n, loopExits total (obs n)) ∧
    (∀ filePath B hv fs, parseContentLength hv = some total →
      B.length < total →
      ∀ fuel, (launch_create_file filePath B hv fs fuel).2 =
        LaunchResult.noFuel) := by
  constructor
  · constructor
    · rintro ⟨fuel, r, h⟩
      rcases progressLoop_some_imp obs total fuel 0 initSize r h with
        ht | ⟨n, _, hex⟩
      · exact Or.inl ht
      · exact Or.inr ⟨n, hex⟩
    · intro hcond
      by_cases hinit : total ≤ initSize
      · refine ⟨1, Except.ok (), ?_⟩
        show progressLoop obs total (0 + 1) 0 initSize = _
        rw [progressLoop_succ, if_neg (Nat.not_lt.mpr hinit)]
      · rcases hcond with ht | ⟨n, hex⟩
        · exact absurd ht hinit
        · have hP : ∃ k, loopExits total (obs k) := ⟨n, hex⟩
          have hpre : ∀ k, k < Nat.find hP →
              ∃ v, obs (0 + k) = Except.ok v ∧ v < total := by
            intro k hk
            have hnk := Nat.find_min hP hk
            cases hok : obs k with
            | error e =>
              exact absurd (show loopExits total (obs k) by rw [hok]; trivial) hnk
            | ok v =>
              refine ⟨v, by rw [Nat.zero_add, hok], ?_⟩
              by_contra hge
              exact hnk (show loopExits total (obs k) by
                rw [hok]; exact Nat.le_of_not_lt hge)
          have hexN : loopExits total (obs (0 + Nat.find hP)) := by
            rw [Nat.zero_add]
            exact Nat.find_spec hP
          obtain ⟨r, hr⟩ := progressLoop_reaches obs total (Nat.find hP) 0
            initSize hpre hexN (Nat.lt_of_not_le hinit)
          exact ⟨Nat.find hP + 2, r, hr⟩
  · intro filePath B hv fs hcl hlt fuel
    have hcl2 : (headerToStr hv).bind u64FromStr = some total := hcl
    obtain ⟨s, hs, hu⟩ := Option.bind_eq_some.mp hcl2
    have hstat := statFile_after_write filePath B fs
    have hnone := progressLoop_const_none (fun _ => Except.ok B.length) total
      B.length (fun _ => rfl) hlt
    simp only [launch_create_file, hstat, hs, hu, hnone]

/-- C9 witness: a 2-byte body against an advertised Content-Length of 5
leaves the loop running at every fuel bound. -/
theorem c9_progress_loop_termination_witness :
    (launch_create_file "/tmp/archeon/f.deb" (strBytes "ab") (strBytes "5")
        emptyFS 100).2 = LaunchResult.noFuel :=
  (c9_progress_loop_termination (fun _ => Except.ok 0) 5 0).2
    "/tmp/archeon/f.deb" (strBytes "ab") (strBytes "5") emptyFS
    (by decide) (by decide) 100

/-- C10: when HEAD, GET, file creation and the write all succeed but the
Content-Length header value is not visible ASCII or not a decimal `u64`,
the `to_str`/`from_str` unwraps panic — after the file at `file_path`
has been created and fully written, and the written file is not
removed. -/
theorem c10_panics_after_write (srv : Server) (filePath : String) (fs : FS)
    (B hv : List Nat) (fuel : Nat)
    (hHead : srv.head = Except.ok (some hv))
    (hGet : srv.get = Except.ok (Except.ok B))
    (hBad : parseContentLength hv = none) :
    (launch srv filePath fs fuel).2.2 = LaunchResult.panicked ∧
    ((launch srv filePath fs fuel).2.1).files filePath = some B := by
  have hlcf := launch_create_file_badcl filePath B hv fs fuel hBad
  simp only [launch, launch_content_length, hHead, hGet, hlcf]
  simp [setFile]

/-- C10 witness: Content-Length `9MB` is not a decimal `u64`, so launch
panics while the fully written body remains on disk. -/
theorem c10_panics_after_write_witness :
    (launch { head := Except.ok (some (strBytes "9MB")),
              get := Except.ok (Except.ok (strBytes "body")) }
        "/tmp/archeon/f.deb" emptyFS 3).2.2 = LaunchResult.panicked ∧
    ((launch { head := Except.ok (some (strBytes "9MB")),
               get := Except.ok (Except.ok (strBytes "body")) }
        "/tmp/archeon/f.deb" emptyFS 3).2.1).files "/tmp/archeon/f.deb" =
      some (strBytes "body") :=
  c10_panics_after_write _ _ emptyFS (strBytes "body") (strBytes "9MB") 3
    rfl rfl (by decide)
